import Mathlib

/-!
Verification of the Verdantis streaming-alerts core (modules m10 and m11)
against its natural-language specification.

The Python modules are shallowly embedded:

* JSON values are the inductive `JVal` / `JObj` (association lists standing
  for Python dicts, in insertion order).  JSON arrays never occur in a
  position any verified property depends on and are not modelled.
* ISO-8601 timestamp strings are modelled by their epoch value in whole
  seconds: the constructor `JVal.i n` stands for a timestamp string that
  `_parse_iso` parses to time `n`; every other value is one `_parse_iso`
  rejects.  Wall-clock calls (`_now`, `dt.datetime.now`) become an explicit
  `now` parameter.
* Numeric JSON values are modelled as integers (no verified property
  depends on fractional values or IEEE float behaviour).
* File IO is dropped: each `run_*` entry point is modelled as the pure
  function from its parsed inputs to its outputs.
-/

mutual

/-- JSON-ish value as manipulated by the Python modules (m10, m11). -/
inductive JVal where
  | null : JVal
  | b : Bool → JVal
  | i : Int → JVal
  | s : String → JVal
  | dict : JObj → JVal

/-- A Python dict, as an insertion-ordered association list (keys unique). -/
inductive JObj where
  | nil : JObj
  | cons : String → JVal → JObj → JObj

end

mutual

/-- Structural boolean equality on `JVal` (models Python `==` on JSON data;
Python's cross-type coercions such as `True == 1` are not modelled). -/
def JVal.beq : JVal → JVal → Bool
  | .null, .null => true
  | .b a, .b c => a == c
  | .i a, .i c => a == c
  | .s a, .s c => a == c
  | .dict a, .dict c => JObj.beq a c
  | _, _ => false

/-- Structural boolean equality on `JObj`. -/
def JObj.beq : JObj → JObj → Bool
  | .nil, .nil => true
  | .cons k v r, .cons k' v' r' => k == k' && JVal.beq v v' && JObj.beq r r'
  | _, _ => false

end

mutual

theorem jvalEqOfBeq : ∀ {a b : JVal}, JVal.beq a b = true → a = b
  | .null, .null, _ => rfl
  | .b _, .b _, h => by
      simp only [JVal.beq, beq_iff_eq] at h; exact congrArg JVal.b h
  | .i _, .i _, h => by
      simp only [JVal.beq, beq_iff_eq] at h; exact congrArg JVal.i h
  | .s _, .s _, h => by
      simp only [JVal.beq, beq_iff_eq] at h; exact congrArg JVal.s h
  | .dict _, .dict _, h => congrArg JVal.dict (jobjEqOfBeq h)

theorem jobjEqOfBeq : ∀ {a b : JObj}, JObj.beq a b = true → a = b
  | .nil, .nil, _ => rfl
  | .cons k v r, .cons k' v' r', h => by
      simp only [JObj.beq, Bool.and_eq_true, beq_iff_eq] at h
      obtain ⟨⟨hk, hv⟩, hr⟩ := h
      exact hk ▸ (jvalEqOfBeq hv) ▸ (jobjEqOfBeq hr) ▸ rfl

end

mutual

theorem jvalBeqRefl : ∀ a : JVal, JVal.beq a a = true
  | .null => rfl
  | .b x => by simp [JVal.beq]
  | .i n => by simp [JVal.beq]
  | .s v => by simp [JVal.beq]
  | .dict o => jobjBeqRefl o

theorem jobjBeqRefl : ∀ a : JObj, JObj.beq a a = true
  | .nil => rfl
  | .cons k v r => by
      simp only [JObj.beq, Bool.and_eq_true, beq_iff_eq]
      exact ⟨⟨trivial, jvalBeqRefl v⟩, jobjBeqRefl r⟩

end

instance : DecidableEq JVal := fun a b =>
  decidable_of_iff (JVal.beq a b = true)
    ⟨jvalEqOfBeq, fun h => h ▸ jvalBeqRefl a⟩

instance : DecidableEq JObj := fun a b =>
  decidable_of_iff (JObj.beq a b = true)
    ⟨jobjEqOfBeq, fun h => h ▸ jobjBeqRefl a⟩

/-- `d.get k`: first binding of `k` in the dict, if any. -/
def JObj.get : JObj → String → Option JVal
  | .nil, _ => none
  | .cons k v rest, key => if k = key then some v else JObj.get rest key

/-- `d.get k` with Python's `None` default (`dict.get` one-argument form). -/
def JObj.getN (o : JObj) (key : String) : JVal :=
  (o.get key).getD .null

/-- Whether the dict is empty (Python truthiness of a dict). -/
def JObj.isEmpty : JObj → Bool
  | .nil => true
  | .cons _ _ _ => false

/-- Python truthiness of a JSON value. -/
def jTruthy : JVal → Bool
  | .null => false
  | .b x => x
  | .i n => n != 0
  | .s v => v ≠ ""
  | .dict o => !o.isEmpty

mutual

/-- Python `repr` of a JSON value (string quote-escaping not modelled;
timestamp strings are rendered as their modelled integer). -/
def pyRepr : JVal → String
  | .null => "None"
  | .b true => "True"
  | .b false => "False"
  | .i n => toString n
  | .s v => "'" ++ v ++ "'"
  | .dict o => "\x7b" ++ String.intercalate ", " (pyReprEntries o) ++ "\x7d"

/-- Entries of a dict rendered `'key': repr(value)` in insertion order. -/
def pyReprEntries : JObj → List String
  | .nil => []
  | .cons k v r => ("'" ++ k ++ "': " ++ pyRepr v) :: pyReprEntries r

end

/-- Python `str` of a JSON value (`str` on a dict delegates to `repr`). -/
def pyStr : JVal → String
  | .null => "None"
  | .b true => "True"
  | .b false => "False"
  | .i n => toString n
  | .s v => v
  | .dict o => pyRepr (.dict o)

/-- `SEVERITY_RANK` — the severity ladder shared by m10_1, m10_2 and m11_4. -/
def SEVERITY_RANK : List (String × Nat) :=
  [("info", 0), ("low", 1), ("medium", 2), ("high", 3), ("critical", 4)]

/-- `SEVERITY_RANK.get(s, 0)` for a string key. -/
def rankOf (s : String) : Nat :=
  ((SEVERITY_RANK.lookup s).getD 0)

/-- `SEVERITY_RANK.get(v, 0)` for an arbitrary JSON value: only string keys
can hit the table, anything else falls back to the default 0. -/
def jRank (v : JVal) : Nat :=
  match v with
  | .s t => rankOf t
  | _ => 0

/-- `_parse_iso`: timestamp strings are modelled by `JVal.i`; every other
value (including `None`, the empty string and non-strings, all of which
Python rejects before or during `fromisoformat`) fails to parse. -/
def parseIso : JVal → Option Int
  | .i n => some n
  | _ => none

/-! ## m10_3_dedupe.py — Dedupe + Flapping Suppression -/

/-- `FlapCfg` (m10_3_dedupe.py). -/
structure FlapCfg where
  enabled : Bool
  key_fields : List String
  value_field : String
  window_seconds : Int
  max_changes : Int

/-- `DedupeCfg` (m10_3_dedupe.py). -/
structure DedupeCfg where
  ttl_seconds : Int
  min_interval_seconds : Int
  key_fields : List String
  flap : FlapCfg

/-- A matched record `{"subscription_id": ..., "event": {...}}` as produced
by m10_1 and consumed by m10_2/m10_3 (`_load_matched` keeps only dicts
having both keys; a non-dict `event` value crashes the Python stage before
any decision is made, so `event` is modelled as a dict). -/
structure MatchedRec where
  subscription_id : JVal
  event : JObj
deriving DecidableEq

/-- Walk the remaining parts of a dotted path: at each step a dict is
indexed with `.get` (missing key yields `None`), a non-dict yields `None`. -/
def walkPath : JVal → List String → JVal
  | cur, [] => cur
  | .dict o, part :: rest => walkPath (o.getN part) rest
  | _, _ :: _ => .null

/-- `_get_nested`: dot-path value; the path may be `subscription_id` or
`event.xxx`, anything else resolves to `None`. -/
def getNested (rec : MatchedRec) (path : String) : JVal :=
  if path = "subscription_id" then rec.subscription_id
  else if path.startsWith "event." then
    walkPath (.dict rec.event) ((path.splitOn ".").tail)
  else .null

/-- `_key_from_fields`: `str` of each resolved path, joined by `|`. -/
def keyFromFields (rec : MatchedRec) (fields : List String) : String :=
  String.intercalate "|" (fields.map (fun field => pyStr (getNested rec field)))

/-- `_event_ts`: the event's parsed `ts`, falling back to the wall clock
(`_now()` is modelled by the explicit parameter `now0`). -/
def eventTs (now0 : Int) (rec : MatchedRec) : Int :=
  (parseIso (rec.event.getN "ts")).getD now0

/-- `_flap_value`. -/
def flapValue (rec : MatchedRec) (value_field : String) : String :=
  if value_field = "subscription_id" then pyStr rec.subscription_id
  else if value_field.startsWith "event." then pyStr (getNested rec value_field)
  else "None"

/-- `_is_duplicate`.  In the source, a falsy `last_sent_ts` (absent or the
empty string) returns `(False, "")` before parsing; in the model every such
value also fails `parseIso`, so the two early returns collapse into the
parse-failure branch with the same result. -/
def isDuplicate (now_dt : Int) (last_sent_ts : Option JVal)
    (ttl_seconds min_interval_seconds : Int) : Bool × String :=
  match last_sent_ts with
  | none => (false, "")
  | some v =>
    match parseIso v with
    | none => (false, "")
    | some prev =>
      let age := now_dt - prev
      if age < min_interval_seconds then (true, "cooldown")
      else if age < ttl_seconds then (true, "duplicate_ttl")
      else (false, "")

/-- The transition-counting loop of `_is_flapping`: `last_val` starts as
`None`, each value differing from the previous one counts as a change. -/
def countChanges : Option String → Nat → List String → Nat
  | _, changes, [] => changes
  | none, changes, val :: rest => countChanges (some val) changes rest
  | some last_val, changes, val :: rest =>
    if val ≠ last_val then countChanges (some val) (changes + 1) rest
    else countChanges (some last_val) changes rest

/-- `_is_flapping`: keep history entries whose timestamp parses and is
within the window, append the new value, then compare transitions with
`max_changes`.  (`str(ts_str)` / `str(val)` coercions are `pyStr`.) -/
def isFlapping (now_dt : Int) (history : List (JVal × JVal)) (new_value : String)
    (window_seconds max_changes : Int) : Bool :=
  let cutoff := now_dt - window_seconds
  let within :=
    (history.filterMap (fun tv =>
      match parseIso tv.1 with
      | some ts => if cutoff ≤ ts then some (pyStr tv.2) else none
      | none => none)) ++ [new_value]
  (countChanges none 0 within : Int) > max_changes

/-- One `state["keys"][key]` entry.  A missing `flap_history` key and an
empty history are both modelled as `[]` (the source reads the field with
`.get("flap_history", [])`). -/
structure KeyEntry where
  last_sent_ts : Option JVal
  flap_history : List (JVal × JVal)
deriving DecidableEq

/-- The fresh `{}` a missing key falls back to. -/
def emptyEntry : KeyEntry := ⟨none, []⟩

/-- The mutable `keys` table of the dedupe state. -/
def DKeys := String → Option KeyEntry

/-- Store under one key (Python `keys[k] = entry`). -/
def DKeys.store (m : DKeys) (k : String) (e : KeyEntry) : DKeys :=
  fun k' => if k' = k then some e else m k'

/-- Running state of the `run_dedupe_cli` loop: the keys table, the `kept`
list (in emission order) and the `suppressed` counter. -/
structure DState where
  keys : DKeys
  kept : List MatchedRec
  suppressed : Nat

/-- The body of the `for idx, rec in enumerate(matched)` loop of
`run_dedupe_cli`, for a single record.

Python mutates dict objects in place; `keys.get(k, {})` aliases the stored
object when `k` is present and creates a distinct fresh dict otherwise.
The one observable consequence: in the keep branch, `key_entry` (fetched
before the flap update) already contains the flap append when `key` was
present in `keys` (same object), but is a separate fresh `{}` when it was
absent.  The `match st.keys key with ...` below reproduces exactly that. -/
def stepRec (cfg : DedupeCfg) (now0 : Int) (st : DState) (rec : MatchedRec) : DState :=
  let now_dt := eventTs now0 rec
  let key := keyFromFields rec cfg.key_fields
  let key_entry := (st.keys key).getD emptyEntry
  let last_sent_ts := key_entry.last_sent_ts
  let dup := isDuplicate now_dt last_sent_ts cfg.ttl_seconds cfg.min_interval_seconds
  if dup.1 then
    -- suppressed: update flap history even for suppressed items
    if cfg.flap.enabled then
      let fv := flapValue rec cfg.flap.value_field
      let hist := key_entry.flap_history ++ [(.i now_dt, .s fv)]
      { st with
        keys := st.keys.store key { key_entry with flap_history := hist },
        suppressed := st.suppressed + 1 }
    else
      { st with suppressed := st.suppressed + 1 }
  else if cfg.flap.enabled then
    let fv := flapValue rec cfg.flap.value_field
    let flap_key := keyFromFields rec cfg.flap.key_fields
    let fk_entry := (st.keys flap_key).getD emptyEntry
    let hist := fk_entry.flap_history
    if isFlapping now_dt hist fv cfg.flap.window_seconds cfg.flap.max_changes then
      -- still append for future stability calculation
      { st with
        keys := st.keys.store flap_key
          { fk_entry with flap_history := hist ++ [(.i now_dt, .s fv)] },
        suppressed := st.suppressed + 1 }
    else
      -- not flapping: update history, then keep and mark sent
      let keys1 := st.keys.store flap_key
        { fk_entry with flap_history := hist ++ [(.i now_dt, .s fv)] }
      let key_entry2 :=
        match st.keys key with
        | some _ => (keys1 key).getD emptyEntry  -- aliased stored object
        | none => emptyEntry                     -- distinct fresh dict
      { keys := keys1.store key { key_entry2 with last_sent_ts := some (.i now_dt) },
        kept := st.kept ++ [rec],
        suppressed := st.suppressed }
  else
    { keys := st.keys.store key { key_entry with last_sent_ts := some (.i now_dt) },
      kept := st.kept ++ [rec],
      suppressed := st.suppressed }

/-- `run_dedupe_cli`, modelled from loaded config, matched records and the
loaded `state["keys"]` table to the final state (file IO dropped; the
returned pair is `(kept.length, suppressed)` of the result). -/
def runDedupe (cfg : DedupeCfg) (now0 : Int) (keys0 : DKeys)
    (matched : List MatchedRec) : DState :=
  matched.foldl (stepRec cfg now0) ⟨keys0, [], 0⟩

/-- `last_sent_ts` as read by the loop for a given key (`keys.get(key, {})`
followed by `.get("last_sent_ts")`). -/
def lastSentAt (m : DKeys) (k : String) : Option JVal :=
  ((m k).getD emptyEntry).last_sent_ts

/-- C5 counterexample: a record 10 seconds older than the stored
`last_sent_ts` (negative age) is *not* treated as not-a-duplicate — with
the default thresholds it is suppressed with reason `cooldown`, because
`age < min_interval_seconds` holds for every negative age. -/
theorem negative_age_suppressed_cex :
    (0 : Int) < 10 ∧
      isDuplicate 0 (some (.i 10)) 3600 300 = (true, "cooldown") := by
  decide

/-- C5 (amended): when the event time is earlier than the stored
`last_sent_ts` (negative age) and the cooldown is nonnegative, the record
is suppressed with reason `cooldown` (negative age always satisfies the
strict `age < min_interval_seconds` test); the age computation itself is
exact and cannot underflow. -/
theorem negative_age_is_cooldown (now_dt prev ttl_s min_s : Int)
    (hpast : now_dt < prev) (hmin : 0 ≤ min_s) :
    isDuplicate now_dt (some (.i prev)) ttl_s min_s = (true, "cooldown") := by
  simp only [isDuplicate, parseIso]
  rw [if_pos (by omega)]

/-- C5 witness: the amended theorem applied at the counterexample input. -/
theorem negative_age_is_cooldown_witness :
    (0 : Int) < 10 ∧ (0 : Int) ≤ 300 ∧
      isDuplicate 0 (some (.i 10)) 3600 300 = (true, "cooldown") :=
  ⟨by decide, by decide, negative_age_is_cooldown 0 10 3600 300 (by decide) (by decide)⟩

/-- C6 counterexample: with `min_interval_seconds = 300`,
`ttl_seconds = 3600` and `age = 300` exactly, the record *is* suppressed —
the cooldown test is strict, but the TTL test then fires with reason
`duplicate_ttl`. -/
theorem age_eq_min_interval_cex :
    (300 : Int) - 0 = 300 ∧
      isDuplicate 300 (some (.i 0)) 3600 300 = (true, "duplicate_ttl") := by
  decide

/-- C6 (amended): when `age == min_interval_seconds` the cooldown
comparison (strict `<`) does not fire, but the record is still suppressed
with reason `duplicate_ttl` whenever `min_interval_seconds < ttl_seconds`;
it is kept only when `ttl_seconds ≤ min_interval_seconds`. -/
theorem age_eq_min_interval_ttl (now_dt prev ttl_s min_s : Int)
    (hage : now_dt - prev = min_s) :
    isDuplicate now_dt (some (.i prev)) ttl_s min_s =
      if min_s < ttl_s then (true, "duplicate_ttl") else (false, "") := by
  simp only [isDuplicate, parseIso, hage]
  rw [if_neg (by omega)]

/-- C6 witness: the amended theorem applied at the counterexample input. -/
theorem age_eq_min_interval_ttl_witness :
    (300 : Int) - 0 = 300 ∧
      isDuplicate 300 (some (.i 0)) 3600 300 =
        (if (300 : Int) < 3600 then (true, "duplicate_ttl") else (false, "")) :=
  ⟨by decide, age_eq_min_interval_ttl 300 0 3600 300 (by decide)⟩

/-- C9: with flap enabled, when a record's flap key equals its dedupe key
`k` and `k` is absent from the loaded state, an emitted record leaves a
state entry holding only `last_sent_ts` and *no* flap history: the pair
appended during the flap check is fetched into a distinct fresh dict and
then overwritten by the dedupe entry. -/
theorem flap_history_lost_on_fresh_key (cfg : DedupeCfg) (now0 : Int)
    (st : DState) (rec : MatchedRec) (k : String)
    (hen : cfg.flap.enabled = true)
    (hk : keyFromFields rec cfg.key_fields = k)
    (hfk : keyFromFields rec cfg.flap.key_fields = k)
    (habs : st.keys k = none)
    (hmax : 0 ≤ cfg.flap.max_changes) :
    (stepRec cfg now0 st rec).kept = st.kept ++ [rec] ∧
      (stepRec cfg now0 st rec).keys k =
        some { last_sent_ts := some (.i (eventTs now0 rec)), flap_history := [] } := by
  have hflap0 : ∀ fv : String, isFlapping (eventTs now0 rec) [] fv
      cfg.flap.window_seconds cfg.flap.max_changes = false := by
    intro fv
    have h0 : countChanges none 0 [fv] = 0 := rfl
    simp only [isFlapping, List.filterMap_nil, List.nil_append, h0,
      decide_eq_false_iff_not, not_lt]
    exact_mod_cast hmax
  simp only [stepRec, hk, hfk, habs, Option.getD_none, emptyEntry, isDuplicate,
    Bool.false_eq_true, if_false, hen, if_true, hflap0, DKeys.store]
  exact ⟨trivial, by simp⟩

/-- C9 witness: a concrete run of one record whose flap key and dedupe key
are both `"sub1"` on an empty state, applying the theorem. -/
theorem flap_history_lost_on_fresh_key_witness :
    (stepRec ⟨3600, 300, ["subscription_id"],
        ⟨true, ["subscription_id"], "event.severity", 1800, 3⟩⟩ 0
        ⟨fun _ => none, [], 0⟩
        ⟨.s "sub1", .cons "ts" (.i 100) .nil⟩).kept =
      [⟨.s "sub1", .cons "ts" (.i 100) .nil⟩] ∧
    (stepRec ⟨3600, 300, ["subscription_id"],
        ⟨true, ["subscription_id"], "event.severity", 1800, 3⟩⟩ 0
        ⟨fun _ => none, [], 0⟩
        ⟨.s "sub1", .cons "ts" (.i 100) .nil⟩).keys "sub1" =
      some { last_sent_ts := some (.i 100), flap_history := [] } :=
  flap_history_lost_on_fresh_key
    ⟨3600, 300, ["subscription_id"],
      ⟨true, ["subscription_id"], "event.severity", 1800, 3⟩⟩ 0
    ⟨fun _ => none, [], 0⟩
    ⟨.s "sub1", .cons "ts" (.i 100) .nil⟩ "sub1"
    rfl (by decide) (by decide) rfl (by decide)

/-- Storing an entry whose `last_sent_ts` is unchanged preserves
`lastSentAt` at every key. -/
theorem lastSentAt_store_same (m : DKeys) (k : String) (e : KeyEntry)
    (h : e.last_sent_ts = lastSentAt m k) :
    ∀ k', lastSentAt (m.store k e) k' = lastSentAt m k' := by
  intro k'
  unfold lastSentAt DKeys.store
  by_cases hk : k' = k
  · subst hk
    rw [if_pos rfl]
    exact h
  · rw [if_neg hk]

/-- `lastSentAt` after a store, at the stored key. -/
theorem lastSentAt_store_self (m : DKeys) (k : String) (e : KeyEntry) :
    lastSentAt (m.store k e) k = e.last_sent_ts := by
  unfold lastSentAt DKeys.store
  rw [if_pos rfl]
  rfl

/-- `lastSentAt` after a store, at any other key. -/
theorem lastSentAt_store_other (m : DKeys) (k : String) (e : KeyEntry)
    (k' : String) (h : k' ≠ k) :
    lastSentAt (m.store k e) k' = lastSentAt m k' := by
  unfold lastSentAt DKeys.store
  rw [if_neg h]

/-- Case analysis of one loop iteration: either the record is suppressed
(`kept` unchanged, every `last_sent_ts` unchanged), or it is emitted (it
was not a duplicate against the current state, its key's `last_sent_ts`
becomes its event time, all other keys keep theirs). -/
theorem stepRec_cases (cfg : DedupeCfg) (now0 : Int) (st : DState) (rec : MatchedRec) :
    ((stepRec cfg now0 st rec).kept = st.kept ∧
      ∀ k, lastSentAt (stepRec cfg now0 st rec).keys k = lastSentAt st.keys k)
    ∨ ((stepRec cfg now0 st rec).kept = st.kept ++ [rec] ∧
      (isDuplicate (eventTs now0 rec)
        (lastSentAt st.keys (keyFromFields rec cfg.key_fields))
        cfg.ttl_seconds cfg.min_interval_seconds).1 = false ∧
      lastSentAt (stepRec cfg now0 st rec).keys (keyFromFields rec cfg.key_fields) =
        some (.i (eventTs now0 rec)) ∧
      ∀ k, k ≠ keyFromFields rec cfg.key_fields →
        lastSentAt (stepRec cfg now0 st rec).keys k = lastSentAt st.keys k) := by
  by_cases hdup : (isDuplicate (eventTs now0 rec)
      ((st.keys (keyFromFields rec cfg.key_fields)).getD emptyEntry).last_sent_ts
      cfg.ttl_seconds cfg.min_interval_seconds).1 = true
  · -- suppressed as duplicate
    left
    by_cases hen : cfg.flap.enabled = true
    · have hstep : stepRec cfg now0 st rec =
          { st with
            keys := st.keys.store (keyFromFields rec cfg.key_fields)
              { (st.keys (keyFromFields rec cfg.key_fields)).getD emptyEntry with
                flap_history :=
                  ((st.keys (keyFromFields rec cfg.key_fields)).getD emptyEntry).flap_history
                    ++ [(.i (eventTs now0 rec),
                         .s (flapValue rec cfg.flap.value_field))] },
            suppressed := st.suppressed + 1 } := by
        simp only [stepRec, hdup, hen, if_true]
      rw [hstep]
      exact ⟨rfl, lastSentAt_store_same _ _ _ rfl⟩
    · have hstep : stepRec cfg now0 st rec =
          { st with suppressed := st.suppressed + 1 } := by
        simp only [stepRec, hdup, hen, if_true, Bool.false_eq_true, if_false]
      rw [hstep]
      exact ⟨rfl, fun _ => rfl⟩
  · -- not a duplicate
    rw [Bool.not_eq_true] at hdup
    by_cases hen : cfg.flap.enabled = true
    · by_cases hfl : isFlapping (eventTs now0 rec)
          ((st.keys (keyFromFields rec cfg.flap.key_fields)).getD emptyEntry).flap_history
          (flapValue rec cfg.flap.value_field)
          cfg.flap.window_seconds cfg.flap.max_changes = true
      · -- suppressed as flapping
        left
        have hstep : stepRec cfg now0 st rec =
            { st with
              keys := st.keys.store (keyFromFields rec cfg.flap.key_fields)
                { (st.keys (keyFromFields rec cfg.flap.key_fields)).getD emptyEntry with
                  flap_history :=
                    ((st.keys (keyFromFields rec cfg.flap.key_fields)).getD
                      emptyEntry).flap_history
                      ++ [(.i (eventTs now0 rec),
                           .s (flapValue rec cfg.flap.value_field))] },
              suppressed := st.suppressed + 1 } := by
          simp only [stepRec, hdup, hen, hfl, if_true, Bool.false_eq_true, if_false]
        rw [hstep]
        exact ⟨rfl, lastSentAt_store_same _ _ _ rfl⟩
      · -- kept, flap history updated first
        right
        rw [Bool.not_eq_true] at hfl
        have hstep : stepRec cfg now0 st rec =
            (let keys1 := st.keys.store (keyFromFields rec cfg.flap.key_fields)
                { (st.keys (keyFromFields rec cfg.flap.key_fields)).getD emptyEntry with
                  flap_history :=
                    ((st.keys (keyFromFields rec cfg.flap.key_fields)).getD
                      emptyEntry).flap_history
                      ++ [(.i (eventTs now0 rec),
                           .s (flapValue rec cfg.flap.value_field))] }
             let key_entry2 :=
               match st.keys (keyFromFields rec cfg.key_fields) with
               | some _ => (keys1 (keyFromFields rec cfg.key_fields)).getD emptyEntry
               | none => emptyEntry
             { keys := keys1.store (keyFromFields rec cfg.key_fields)
                 { key_entry2 with last_sent_ts := some (.i (eventTs now0 rec)) },
               kept := st.kept ++ [rec],
               suppressed := st.suppressed }) := by
          simp only [stepRec, hdup, hen, hfl, if_true, Bool.false_eq_true, if_false]
        rw [hstep]
        refine ⟨rfl, hdup, lastSentAt_store_self _ _ _, fun k hk => ?_⟩
        rw [lastSentAt_store_other _ _ _ _ hk]
        refine lastSentAt_store_same _ _ _ ?_ k
        rfl
    · -- kept, flap disabled
      right
      have hstep : stepRec cfg now0 st rec =
          { keys := st.keys.store (keyFromFields rec cfg.key_fields)
              { (st.keys (keyFromFields rec cfg.key_fields)).getD emptyEntry with
                last_sent_ts := some (.i (eventTs now0 rec)) },
            kept := st.kept ++ [rec],
            suppressed := st.suppressed } := by
        simp only [stepRec, hdup, hen, Bool.false_eq_true, if_false]
      rw [hstep]
      exact ⟨rfl, hdup, lastSentAt_store_self _ _ _,
        fun k hk => lastSentAt_store_other _ _ _ _ hk⟩

/-- "Processed in event-time order": the effective event times of the
matched list are pairwise nondecreasing. -/
def eventTimeOrdered (now0 : Int) (recs : List MatchedRec) : Prop :=
  recs.Pairwise (fun a b => eventTs now0 a ≤ eventTs now0 b)

/-- A record that survives `_is_duplicate` against a parseable
`last_sent_ts` is at least `min_interval_seconds` past it. -/
theorem min_interval_le_of_not_dup (now_dt t ttl_s min_s : Int)
    (h : (isDuplicate now_dt (some (.i t)) ttl_s min_s).1 = false) :
    min_s ≤ now_dt - t := by
  by_contra hlt
  rw [not_le] at hlt
  simp only [isDuplicate, parseIso] at h
  rw [if_pos hlt] at h
  simp at h

/-- Loop invariant for `run_dedupe_cli`: (a) emitted records on one dedupe
key are at least the cooldown apart, and (b) every emitted record's key
holds a `last_sent_ts` no earlier than its event time. -/
theorem dedupe_fold_inv (cfg : DedupeCfg) (now0 : Int) :
    ∀ (recs : List MatchedRec) (st : DState),
      (∀ r1 ∈ st.kept, ∀ r2 ∈ st.kept,
        keyFromFields r1 cfg.key_fields = keyFromFields r2 cfg.key_fields →
        eventTs now0 r1 < eventTs now0 r2 →
        cfg.min_interval_seconds ≤ eventTs now0 r2 - eventTs now0 r1) →
      (∀ r ∈ st.kept, ∃ t : Int, eventTs now0 r ≤ t ∧
        lastSentAt st.keys (keyFromFields r cfg.key_fields) = some (.i t)) →
      (∀ r ∈ st.kept, ∀ s ∈ recs, eventTs now0 r ≤ eventTs now0 s) →
      eventTimeOrdered now0 recs →
      (∀ r1 ∈ (recs.foldl (stepRec cfg now0) st).kept,
        ∀ r2 ∈ (recs.foldl (stepRec cfg now0) st).kept,
        keyFromFields r1 cfg.key_fields = keyFromFields r2 cfg.key_fields →
        eventTs now0 r1 < eventTs now0 r2 →
        cfg.min_interval_seconds ≤ eventTs now0 r2 - eventTs now0 r1) := by
  intro recs
  induction recs with
  | nil => intro st ha _ _ _; exact ha
  | cons rec rest ih =>
    intro st ha hb hbound horder
    rw [eventTimeOrdered, List.pairwise_cons] at horder
    obtain ⟨hhead, hrest⟩ := horder
    rw [List.foldl_cons]
    rcases stepRec_cases cfg now0 st rec with
      ⟨hkept, hpres⟩ | ⟨hkept, hnotdup, hself, hother⟩
    · -- suppressed: state's last_sent view and kept list unchanged
      refine ih (stepRec cfg now0 st rec) ?_ ?_ ?_ hrest
      · rw [hkept]; exact ha
      · rw [hkept]
        intro r hr
        obtain ⟨t, ht, hlast⟩ := hb r hr
        exact ⟨t, ht, (hpres _).trans hlast⟩
      · rw [hkept]
        intro r hr s hs
        exact hbound r hr s (List.mem_cons_of_mem _ hs)
    · -- emitted
      refine ih (stepRec cfg now0 st rec) ?_ ?_ ?_ hrest
      · rw [hkept]
        intro r1 hr1 r2 hr2 hkey hlt
        rcases List.mem_append.1 hr1 with h1 | h1 <;>
          rcases List.mem_append.1 hr2 with h2 | h2
        · exact ha r1 h1 r2 h2 hkey hlt
        · -- r2 is the new record: use (b) and the non-duplicate test
          rw [List.mem_singleton] at h2
          subst h2
          obtain ⟨t, ht, hlast⟩ := hb r1 h1
          rw [hkey] at hlast
          rw [hlast] at hnotdup
          have hgap := min_interval_le_of_not_dup _ _ _ _ hnotdup
          omega
        · -- r1 is the new record, r2 an older one: impossible in order
          rw [List.mem_singleton] at h1
          subst h1
          have := hbound r2 h2 r1 (List.mem_cons_self _ _)
          omega
        · rw [List.mem_singleton] at h1 h2
          subst h1; subst h2
          omega
      · rw [hkept]
        intro r hr
        rcases List.mem_append.1 hr with h1 | h1
        · by_cases hk : keyFromFields r cfg.key_fields =
              keyFromFields rec cfg.key_fields
          · refine ⟨eventTs now0 rec, hbound r h1 rec (List.mem_cons_self _ _), ?_⟩
            rw [hk, hself]
          · obtain ⟨t, ht, hlast⟩ := hb r h1
            exact ⟨t, ht, (hother _ hk).trans hlast⟩
        · rw [List.mem_singleton] at h1
          subst h1
          exact ⟨eventTs now0 r, le_refl _, hself⟩
      · rw [hkept]
        intro r hr s hs
        rcases List.mem_append.1 hr with h1 | h1
        · exact hbound r h1 s (List.mem_cons_of_mem _ hs)
        · rw [List.mem_singleton] at h1
          subst h1
          exact hhead s hs

/-- C1: over any run of the dedupe stage on matched records processed in
event-time order (with `min_interval_seconds ≤ ttl_seconds` as the spec
assumes), two emitted records sharing a dedupe key with event times
`t1 < t2` satisfy `t2 - t1 ≥ min_interval_seconds`. -/
theorem dedupe_cooldown_spacing (cfg : DedupeCfg) (now0 : Int) (keys0 : DKeys)
    (matched : List MatchedRec)
    (hcfg : cfg.min_interval_seconds ≤ cfg.ttl_seconds)
    (horder : eventTimeOrdered now0 matched) :
    ∀ r1 ∈ (runDedupe cfg now0 keys0 matched).kept,
    ∀ r2 ∈ (runDedupe cfg now0 keys0 matched).kept,
      keyFromFields r1 cfg.key_fields = keyFromFields r2 cfg.key_fields →
      eventTs now0 r1 < eventTs now0 r2 →
      cfg.min_interval_seconds ≤ eventTs now0 r2 - eventTs now0 r1 := by
  exact dedupe_fold_inv cfg now0 matched ⟨keys0, [], 0⟩
    (by intro r1 hr1; cases hr1)
    (by intro r hr; cases hr)
    (by intro r hr; cases hr)
    horder

/-- C1 witness: a concrete run (cooldown 300, TTL 3600, flap disabled) in
which two records on dedupe key `"a"` at event times 0 and 4000 are both
emitted, instantiating the spacing theorem. -/
theorem dedupe_cooldown_spacing_witness :
    (300 : Int) ≤ eventTs 0 ⟨.s "a", .cons "ts" (.i 4000) .nil⟩ -
      eventTs 0 ⟨.s "a", .cons "ts" (.i 0) .nil⟩ :=
  dedupe_cooldown_spacing
    ⟨3600, 300, ["subscription_id"], ⟨false, [], "event.severity", 1800, 3⟩⟩ 0
    (fun _ => none)
    [⟨.s "a", .cons "ts" (.i 0) .nil⟩, ⟨.s "a", .cons "ts" (.i 4000) .nil⟩]
    (by decide)
    (by unfold eventTimeOrdered; decide)
    ⟨.s "a", .cons "ts" (.i 0) .nil⟩ (by decide)
    ⟨.s "a", .cons "ts" (.i 4000) .nil⟩ (by decide)
    (by decide) (by decide)

/-! ## m10_1_filters.py — Alerts filter engine -/

/-- Python truthiness of an optional list field (`None` and `[]` falsy). -/
def optListTruthy {α : Type} (o : Option (List α)) : Bool :=
  match o with
  | some l => !l.isEmpty
  | none => false

/-- Python truthiness of an optional string field (`None` and `""` falsy). -/
def strTruthy (o : Option String) : Bool :=
  match o with
  | some v => v ≠ ""
  | none => false

/-- `x in set(strs)` for an event value `x`: only a string value can be a
member of a set of strings. -/
def memStr (v : JVal) (l : List String) : Bool :=
  match v with
  | .s t => l.contains t
  | _ => false

/-- `float(x)` on a JSON value, `none` when Python raises
`TypeError`/`ValueError` (numeric-string parsing is not modelled; no
verified property depends on it). -/
def pyFloat : JVal → Option Int
  | .null => none
  | .b x => some (if x then 1 else 0)
  | .i n => some n
  | .s _ => none
  | .dict _ => none

/-- `event.get("delta") or {}`: a falsy value becomes `{}`; a truthy
non-dict value makes the Python source raise at `delta.get` (outside the
model). -/
def evDelta (event : JObj) : JObj :=
  match event.getN "delta" with
  | .dict o => o
  | _ => .nil

/-- The `min_delta` loop: every floor must be met; a conversion failure
fails the predicate. -/
def minDeltaOk : List (String × Int) → JObj → Bool
  | [], _ => true
  | (k, v) :: rest, delta =>
    match pyFloat ((delta.get k).getD (.i 0)) with
    | none => false
    | some a => if a < v then false else minDeltaOk rest delta

/-- The `suppress_if` loop condition: every `(field, value)` pair equals
the event's value (Python's `for … break / else` returns `False` from
`match` exactly when no pair broke the loop). -/
def suppressAllMatch : List (String × JVal) → JObj → Bool
  | [], _ => true
  | (k, v) :: rest, event =>
    if event.getN k = v then suppressAllMatch rest event else false

/-- `AlertFilter` (m10_1_filters.py).  Set-valued fields are typed as they
appear in real configurations; `min_delta` floors are integers under the
integer model of JSON numbers. -/
structure AlertFilter where
  id : String
  topics : Option (List String)
  severity_at_least : Option String
  assets : Option (List String)
  rule_types : Option (List String)
  aoi_ids : Option (List String)
  min_delta : Option (List (String × Int))
  suppress_if : Option (List (String × JVal))
deriving DecidableEq

/-- `AlertFilter.match`: all present predicates must hold, and a fully
matched `suppress_if` excludes the event. -/
def matchFilter (f : AlertFilter) (event : JObj) : Bool :=
  if optListTruthy f.topics && !(memStr (event.getN "topic") (f.topics.getD [])) then
    false
  else if strTruthy f.severity_at_least &&
      decide (jRank ((event.get "severity").getD (.s "info")) <
        rankOf (f.severity_at_least.getD "")) then
    false
  else if (optListTruthy f.assets && !((f.assets.getD []).contains "*")) &&
      !(memStr (event.getN "asset_id") (f.assets.getD [])) then
    false
  else if optListTruthy f.rule_types &&
      !(memStr (event.getN "rule_type") (f.rule_types.getD [])) then
    false
  else if optListTruthy f.aoi_ids &&
      !(memStr (event.getN "aoi_id") (f.aoi_ids.getD [])) then
    false
  else if optListTruthy f.min_delta &&
      !(minDeltaOk (f.min_delta.getD []) (evDelta event)) then
    false
  else if optListTruthy f.suppress_if &&
      suppressAllMatch (f.suppress_if.getD []) event then
    false
  else
    true

/-- One entry of the `subscriptions` array as consumed by `load_filters`;
`id = none` models a JSON object without an `"id"` key (on which
`item["id"]` raises `KeyError`). -/
structure SubItem where
  id : Option JVal
  topics : Option (List String)
  severity_at_least : Option String
  assets : Option (List String)
  rule_types : Option (List String)
  aoi_ids : Option (List String)
  min_delta : Option (List (String × Int))
  suppress_if : Option (List (String × JVal))
deriving DecidableEq

/-- `load_filters`: builds one `AlertFilter` per subscription entry, in
order; the only failure is a missing `id` key. -/
def loadFilters : List SubItem → Except String (List AlertFilter)
  | [] => .ok []
  | it :: rest =>
    match it.id with
    | none => .error "KeyError: id"
    | some v =>
      match loadFilters rest with
      | .error e => .error e
      | .ok fs =>
        .ok ({ id := pyStr v, topics := it.topics,
               severity_at_least := it.severity_at_least, assets := it.assets,
               rule_types := it.rule_types, aoi_ids := it.aoi_ids,
               min_delta := it.min_delta, suppress_if := it.suppress_if } :: fs)

/-- C4 counterexample: with an *empty* `suppress_if` mapping every
`(field, value)` pair vacuously matches the event, yet the subscription
still matches — `if self.suppress_if:` is falsy on `{}`, so the exclusion
never runs. -/
theorem suppress_if_empty_cex :
    suppressAllMatch [] JObj.nil = true ∧
      matchFilter ⟨"s1", none, none, none, none, none, none, some []⟩ JObj.nil = true := by
  decide

/-- C4 (amended): for a *nonempty* `suppress_if` mapping: if every pair
equals the event's value the subscription does not match, and if some pair
differs the `suppress_if` clause has no effect — the result equals that of
the same filter without `suppress_if`. -/
theorem suppress_if_semantics (f : AlertFilter) (event : JObj)
    (pairs : List (String × JVal)) (hs : f.suppress_if = some pairs)
    (hne : pairs ≠ []) :
    (suppressAllMatch pairs event = true → matchFilter f event = false) ∧
    (suppressAllMatch pairs event = false →
      matchFilter f event = matchFilter { f with suppress_if := none } event) := by
  have htr : optListTruthy (some pairs) = true := by
    simp only [optListTruthy, Bool.not_eq_eq_eq_not, Bool.not_false]
    exact List.isEmpty_eq_false.mpr hne
  constructor
  · intro hsm
    unfold matchFilter
    rw [hs]
    simp only [Option.getD_some, htr, hsm, Bool.and_self]
    split_ifs <;> rfl
  · intro hsm
    unfold matchFilter
    rw [hs]
    simp only [Option.getD_some, hsm, Bool.and_false, optListTruthy,
      Bool.false_and, suppressAllMatch]

/-- C4 witness: a concrete filter whose single `suppress_if` pair matches
the event, applying the amended theorem. -/
theorem suppress_if_semantics_witness :
    suppressAllMatch [("acknowledged", .b true)]
        (JObj.cons "acknowledged" (.b true) JObj.nil) = true ∧
      matchFilter
        ⟨"s1", none, none, none, none, none, none, some [("acknowledged", .b true)]⟩
        (JObj.cons "acknowledged" (.b true) JObj.nil) = false :=
  ⟨by decide,
    (suppress_if_semantics
      ⟨"s1", none, none, none, none, none, none, some [("acknowledged", .b true)]⟩
      (JObj.cons "acknowledged" (.b true) JObj.nil)
      [("acknowledged", .b true)] rfl (by decide)).1 (by decide)⟩

/-- C7 counterexample: a configuration containing two subscriptions with
the same id `"a"` is *not* rejected — `load_filters` returns a filter list
with both entries. -/
theorem duplicate_sub_id_not_rejected_cex :
    loadFilters [⟨some (.s "a"), none, none, none, none, none, none, none⟩,
                 ⟨some (.s "a"), none, none, none, none, none, none, none⟩] =
      .ok [⟨"a", none, none, none, none, none, none, none⟩,
           ⟨"a", none, none, none, none, none, none, none⟩] := rfl

/-- The filter `load_filters` builds from one subscription entry (total on
entries whose `id` key is present). -/
def subToFilter (it : SubItem) : AlertFilter :=
  { id := pyStr (it.id.getD .null), topics := it.topics,
    severity_at_least := it.severity_at_least, assets := it.assets,
    rule_types := it.rule_types, aoi_ids := it.aoi_ids,
    min_delta := it.min_delta, suppress_if := it.suppress_if }

/-- C7 (amended): `load_filters` performs no duplicate-id validation: for
any configuration whose entries all carry an `id` key — duplicate ids
included — it succeeds and returns one filter per entry, in order. -/
theorem load_filters_no_validation (cfg : List SubItem)
    (hid : ∀ it ∈ cfg, it.id ≠ none) :
    loadFilters cfg = .ok (cfg.map subToFilter) := by
  induction cfg with
  | nil => rfl
  | cons it rest ih =>
    have hrest := ih (fun x hx => hid x (List.mem_cons_of_mem _ hx))
    cases hidv : it.id with
    | none => exact absurd hidv (hid it (List.mem_cons_self _ _))
    | some v =>
      simp only [loadFilters, hidv, hrest, List.map_cons, Except.ok.injEq,
        List.cons.injEq]
      exact ⟨by simp [subToFilter, hidv], trivial⟩

/-- C7 witness: the amended theorem applied to the duplicate-id
configuration of the counterexample. -/
theorem load_filters_no_validation_witness :
    loadFilters [⟨some (.s "a"), none, none, none, none, none, none, none⟩,
                 ⟨some (.s "a"), none, none, none, none, none, none, none⟩] =
      .ok ([⟨some (.s "a"), none, none, none, none, none, none, none⟩,
            ⟨some (.s "a"), none, none, none, none, none, none, none⟩].map subToFilter) :=
  load_filters_no_validation
    [⟨some (.s "a"), none, none, none, none, none, none, none⟩,
     ⟨some (.s "a"), none, none, none, none, none, none, none⟩]
    (by decide)

/-! ## m10_2_channels.py — Channels router with rate limits -/

/-- `RouteMatch` (m10_2_channels.py). -/
structure RouteMatch where
  subscription_ids : Option (List String)
  topics : Option (List String)
  severity_at_least : Option String
deriving DecidableEq

/-- `ChannelCfg` (m10_2_channels.py); `to_` embeds the source field `to`
(a Lean token) and `subject_pfx` the source field `subject_prefix`. -/
structure ChannelCfg where
  type : String
  id : String
  outbox_dir : String
  to_ : Option (List String)
  subject_pfx : Option String
  max_per_run : Option Int
deriving DecidableEq

/-- `RouteCfg` (m10_2_channels.py); `rmatch` embeds the source field
`match` (a Lean keyword). -/
structure RouteCfg where
  id : String
  rmatch : RouteMatch
  channels : List ChannelCfg
deriving DecidableEq

/-- `GlobalLimits` (m10_2_channels.py). -/
structure GlobalLimits where
  max_per_run : Option Int
deriving DecidableEq

/-- `_route_matches`: AND of the present predicates. -/
def routeMatches (route : RouteCfg) (subscription_id : String) (event : JObj) : Bool :=
  if optListTruthy route.rmatch.subscription_ids &&
      !((route.rmatch.subscription_ids.getD []).contains subscription_id) then
    false
  else if optListTruthy route.rmatch.topics &&
      !(memStr (event.getN "topic") (route.rmatch.topics.getD [])) then
    false
  else if strTruthy route.rmatch.severity_at_least &&
      decide (jRank ((event.get "severity").getD (.s "info")) <
        rankOf (route.rmatch.severity_at_least.getD "")) then
    false
  else
    true

/-- `_format_subject`. -/
def formatSubject (pfx : Option String) (subscription_id : String) (event : JObj) : String :=
  let topic := pyStr ((event.get "topic").getD (.s "event"))
  let sev := (pyStr ((event.get "severity").getD (.s "info"))).toUpper
  let base := "[" ++ sev ++ "] " ++ topic ++ " via " ++ subscription_id
  if strTruthy pfx then pfx.getD "" ++ " " ++ base else base

/-- `_safe_event_id`: the event's `id` when it is a nonempty string,
otherwise `ev_<idx>`. -/
def safeEventId (event : JObj) (idx : Nat) : String :=
  match event.getN "id" with
  | .s v => if v ≠ "" then v else "ev_" ++ toString idx
  | _ => "ev_" ++ toString idx

/-- Outbox filename `"{_safe_event_id(event, idx)}__{subscription_id}.json"`
shared by both sinks. -/
def sendFname (event : JObj) (idx : Nat) (subscription_id : String) : String :=
  safeEventId event idx ++ "__" ++ subscription_id ++ ".json"

/-- The JSON object `_send_webhook` writes (`ts` is `_now_utc_iso()`,
modelled as the integer parameter). -/
structure WebhookPayload where
  channel_id : String
  type : String
  ts : Int
  subscription_id : String
  event : JObj
  meta_note : String
deriving DecidableEq

/-- The JSON object `_send_email` writes. -/
structure EmailPayload where
  channel_id : String
  type : String
  ts : Int
  to_ : List String
  subject : String
  body_headline : String
  body_summary : List (String × JVal)
  body_event : JObj
deriving DecidableEq

/-- `_send_webhook` as the written file: `(path, payload)`; the returned
triple is constantly `(True, "written", path)`. -/
def webhookFile (cfg : ChannelCfg) (subscription_id : String) (event : JObj)
    (idx : Nat) (now_iso : Int) : String × WebhookPayload :=
  (cfg.outbox_dir ++ "/" ++ sendFname event idx subscription_id,
   { channel_id := cfg.id, type := "webhook", ts := now_iso,
     subscription_id := subscription_id, event := event,
     meta_note := "stub webhook - no network call" })

/-- `_send_email` as the written file: `(path, payload)`. -/
def emailFile (cfg : ChannelCfg) (subscription_id : String) (event : JObj)
    (idx : Nat) (now_iso : Int) : String × EmailPayload :=
  (cfg.outbox_dir ++ "/" ++ sendFname event idx subscription_id,
   { channel_id := cfg.id, type := "email", ts := now_iso,
     to_ := cfg.to_.getD [],
     subject := formatSubject cfg.subject_pfx subscription_id event,
     body_headline := "Alert from " ++ subscription_id,
     body_summary :=
       [("topic", event.getN "topic"), ("asset_id", event.getN "asset_id"),
        ("aoi_id", event.getN "aoi_id"), ("severity", event.getN "severity"),
        ("rule_type", event.getN "rule_type")],
     body_event := event })

/-- C8 counterexample: the outbox file is *not* a function of record and
configuration alone — the payload embeds the wall-clock `ts` of the send,
so two runs at different times write different bytes (for both sinks). -/
theorem outbox_file_not_run_independent_cex :
    webhookFile ⟨"webhook", "ch1", "outbox", none, none, none⟩ "s1" JObj.nil 0 0 ≠
      webhookFile ⟨"webhook", "ch1", "outbox", none, none, none⟩ "s1" JObj.nil 0 1 ∧
    emailFile ⟨"email", "ch2", "outbox", none, none, none⟩ "s1" JObj.nil 0 0 ≠
      emailFile ⟨"email", "ch2", "outbox", none, none, none⟩ "s1" JObj.nil 0 1 := by
  decide

/-- C8 (amended): re-running the router over the same input writes the
same outbox *filenames*, and file contents identical except for the
embedded `ts` send-timestamp: every other payload field is a function of
the matched record and the configuration only. -/
theorem outbox_file_deterministic_up_to_ts (cfg : ChannelCfg)
    (subscription_id : String) (event : JObj) (idx : Nat) (now1 now2 : Int) :
    (webhookFile cfg subscription_id event idx now1).1 =
      (webhookFile cfg subscription_id event idx now2).1 ∧
    { (webhookFile cfg subscription_id event idx now1).2 with ts := now2 } =
      (webhookFile cfg subscription_id event idx now2).2 ∧
    (emailFile cfg subscription_id event idx now1).1 =
      (emailFile cfg subscription_id event idx now2).1 ∧
    { (emailFile cfg subscription_id event idx now1).2 with ts := now2 } =
      (emailFile cfg subscription_id event idx now2).2 :=
  ⟨rfl, rfl, rfl, rfl⟩

/-- One result record appended to `details` (absent dict keys are `none`). -/
structure AttemptRec where
  subscription_id : String
  route_id : Option String
  channel_id : Option String
  event_id : String
  status : String
  reason : Option String
  info : Option String
  out_path : Option String
deriving DecidableEq

/-- The mutable counters and `details` accumulator of `run_channels_cli`. -/
structure RState where
  sent : Nat
  skipped : Nat
  global_used : Nat
  per_channel_sent : String → Nat
  per_channel_skipped : String → Nat
  per_chan_limit_used : String → Nat
  details : List AttemptRec

/-- `d[k] = d.get(k, 0) + 1` on a counter dict. -/
def bump (m : String → Nat) (k : String) : String → Nat :=
  fun k' => if k' = k then m k + 1 else m k'

/-- The global limiter test
`gl.max_per_run is not None and global_used >= int(gl.max_per_run)`. -/
def globalLimited (gl : GlobalLimits) (global_used : Nat) : Bool :=
  match gl.max_per_run with
  | some g => (global_used : Int) ≥ g
  | none => false

/-- The per-channel limiter test
`chan.max_per_run is not None and used_for_chan >= int(chan.max_per_run)`. -/
def chanLimited (chan : ChannelCfg) (used_for_chan : Nat) : Bool :=
  match chan.max_per_run with
  | some m => (used_for_chan : Int) ≥ m
  | none => false

/-- The innermost loop body of `run_channels_cli` (one channel of one
matching route). -/
def stepChan (gl : GlobalLimits) (subscription_id : String) (event : JObj)
    (idx : Nat) (rt : RouteCfg) (now_iso : Int) (st : RState)
    (chan : ChannelCfg) : RState :=
  if globalLimited gl st.global_used then
    { st with
      per_channel_skipped := bump st.per_channel_skipped chan.id,
      details := st.details ++
        [⟨subscription_id, some rt.id, some chan.id, safeEventId event idx,
          "skipped", some "global_rate_limited", none, none⟩],
      skipped := st.skipped + 1 }
  else
    let used_for_chan := st.per_chan_limit_used chan.id
    if chanLimited chan used_for_chan then
      { st with
        per_channel_skipped := bump st.per_channel_skipped chan.id,
        details := st.details ++
          [⟨subscription_id, some rt.id, some chan.id, safeEventId event idx,
            "skipped", some "channel_rate_limited", none, none⟩],
        skipped := st.skipped + 1 }
    else
      let send :=
        if chan.type = "webhook" then
          (true, "written", (webhookFile chan subscription_id event idx now_iso).1)
        else if chan.type = "email" then
          (true, "written", (emailFile chan subscription_id event idx now_iso).1)
        else
          (false, "unknown_channel_type:" ++ chan.type, "")
      if send.1 then
        { st with
          sent := st.sent + 1,
          global_used := st.global_used + 1,
          per_chan_limit_used :=
            fun k => if k = chan.id then used_for_chan + 1
                     else st.per_chan_limit_used k,
          per_channel_sent := bump st.per_channel_sent chan.id,
          details := st.details ++
            [⟨subscription_id, some rt.id, some chan.id, safeEventId event idx,
              "sent", none, some send.2.1, some send.2.2⟩] }
      else
        { st with
          skipped := st.skipped + 1,
          per_channel_skipped := bump st.per_channel_skipped chan.id,
          details := st.details ++
            [⟨subscription_id, some rt.id, some chan.id, safeEventId event idx,
              "skipped", some send.2.1, none, none⟩] }

/-- The body of the `for idx, rec in enumerate(matched)` loop of
`run_channels_cli`. -/
def stepRecR (routes : List RouteCfg) (gl : GlobalLimits) (now_iso : Int)
    (st : RState) (p : Nat × MatchedRec) : RState :=
  let idx := p.1
  let sub_id := pyStr p.2.subscription_id
  let event := p.2.event
  let matched_routes := routes.filter (fun rt => routeMatches rt sub_id event)
  if matched_routes.isEmpty then
    { st with
      details := st.details ++
        [⟨sub_id, none, none, safeEventId event idx, "skipped",
          some "no_route", none, none⟩],
      skipped := st.skipped + 1 }
  else
    matched_routes.foldl
      (fun st1 rt => rt.channels.foldl (stepChan gl sub_id event idx rt now_iso) st1)
      st

/-- `run_channels_cli`, modelled from loaded routes, limits and matched
records to the final counters and `details` list (file IO dropped; the
returned pair is `(sent, skipped)` of the result). -/
def runChannels (routes : List RouteCfg) (gl : GlobalLimits) (now_iso : Int)
    (matched : List MatchedRec) : RState :=
  matched.enum.foldl (stepRecR routes gl now_iso)
    ⟨0, 0, 0, fun _ => 0, fun _ => 0, fun _ => 0, []⟩

/-- Folding the channels of routes that all have empty channel lists does
nothing. -/
theorem foldl_empty_channels (gl : GlobalLimits) (sub_id : String)
    (event : JObj) (idx : Nat) (now_iso : Int) :
    ∀ (l : List RouteCfg) (st : RState), (∀ rt ∈ l, rt.channels = []) →
      l.foldl
        (fun st1 rt => rt.channels.foldl (stepChan gl sub_id event idx rt now_iso) st1)
        st = st := by
  intro l
  induction l with
  | nil => intro st _; rfl
  | cons rt rest ih =>
    intro st hl
    rw [List.foldl_cons, hl rt (List.mem_cons_self _ _)]
    exact ih st (fun x hx => hl x (List.mem_cons_of_mem _ hx))

/-- C10: a matched record with at least one matching route but only empty
channel lists on its matching routes produces no result record and touches
no counter — the state is returned unchanged — while a record with *no*
matching route appends a `skipped`/`no_route` result and bumps `skipped`. -/
theorem record_with_empty_channel_routes_no_trace (routes : List RouteCfg)
    (gl : GlobalLimits) (now_iso : Int) (st : RState) (idx : Nat)
    (rec : MatchedRec) :
    ((routes.filter
        (fun rt => routeMatches rt (pyStr rec.subscription_id) rec.event)) ≠ [] →
      (∀ rt ∈ routes.filter
          (fun rt => routeMatches rt (pyStr rec.subscription_id) rec.event),
        rt.channels = []) →
      stepRecR routes gl now_iso st (idx, rec) = st) ∧
    (routes.filter
        (fun rt => routeMatches rt (pyStr rec.subscription_id) rec.event) = [] →
      stepRecR routes gl now_iso st (idx, rec) =
        { st with
          details := st.details ++
            [⟨pyStr rec.subscription_id, none, none, safeEventId rec.event idx,
              "skipped", some "no_route", none, none⟩],
          skipped := st.skipped + 1 }) := by
  constructor
  · intro hne hempty
    unfold stepRecR
    rw [if_neg (by simpa using hne)]
    exact foldl_empty_channels _ _ _ _ _ _ st hempty
  · intro hnil
    unfold stepRecR
    rw [if_pos (by simpa using hnil)]

/-- C10 witness: one route matching everything with an empty channel list —
the record leaves the state untouched — and an empty route table — the
record is recorded as `no_route`. -/
theorem record_with_empty_channel_routes_no_trace_witness :
    stepRecR [⟨"r1", ⟨none, none, none⟩, []⟩] ⟨none⟩ 0
        ⟨0, 0, 0, fun _ => 0, fun _ => 0, fun _ => 0, []⟩
        (0, ⟨.s "s1", JObj.nil⟩) =
      ⟨0, 0, 0, fun _ => 0, fun _ => 0, fun _ => 0, []⟩ :=
  (record_with_empty_channel_routes_no_trace
      [⟨"r1", ⟨none, none, none⟩, []⟩] ⟨none⟩ 0
      ⟨0, 0, 0, fun _ => 0, fun _ => 0, fun _ => 0, []⟩ 0
      ⟨.s "s1", JObj.nil⟩).1
    (by decide)
    (by decide)

/-- `countP` over a snoc. -/
theorem countP_snoc {α : Type} (p : α → Bool) (l : List α) (a : α) :
    (l ++ [a]).countP p = l.countP p + (if p a then 1 else 0) := by
  rw [List.countP_append]
  simp [List.countP_cons]

/-- Fold preservation with a membership-indexed side condition. -/
theorem foldl_preserve_mem {α β : Type} (P : α → Prop) (f : α → β → α) :
    ∀ (l : List β), (∀ a b, b ∈ l → P a → P (f a b)) →
      ∀ a, P a → P (l.foldl f a) := by
  intro l
  induction l with
  | nil => intro _ a ha; exact ha
  | cons x xs ih =>
    intro hf a ha
    rw [List.foldl_cons]
    exact ih (fun a' b hb => hf a' b (List.mem_cons_of_mem _ hb)) _
      (hf a x (List.mem_cons_self _ _) ha)

/-- Case analysis of the innermost router loop: every iteration either
appends one `skipped` record and leaves the send counters untouched (also
keeping `sent`), or passes both limiters, appends one `sent` record on this
channel, and advances `global_used` and this channel's counter by one. -/
theorem stepChan_cases (gl : GlobalLimits) (sub_id : String) (event : JObj)
    (idx : Nat) (rt : RouteCfg) (now_iso : Int) (st : RState) (chan : ChannelCfg) :
    (∃ d : AttemptRec, d.status = "skipped" ∧
      (stepChan gl sub_id event idx rt now_iso st chan).details = st.details ++ [d] ∧
      (stepChan gl sub_id event idx rt now_iso st chan).global_used = st.global_used ∧
      (stepChan gl sub_id event idx rt now_iso st chan).per_chan_limit_used =
        st.per_chan_limit_used)
    ∨ (globalLimited gl st.global_used = false ∧
      chanLimited chan (st.per_chan_limit_used chan.id) = false ∧
      (∃ d : AttemptRec, d.status = "sent" ∧ d.channel_id = some chan.id ∧
        (stepChan gl sub_id event idx rt now_iso st chan).details = st.details ++ [d]) ∧
      (stepChan gl sub_id event idx rt now_iso st chan).global_used =
        st.global_used + 1 ∧
      (stepChan gl sub_id event idx rt now_iso st chan).per_chan_limit_used =
        fun k => if k = chan.id then st.per_chan_limit_used chan.id + 1
                 else st.per_chan_limit_used k) := by
  by_cases hgl : globalLimited gl st.global_used = true
  · left
    refine ⟨⟨sub_id, some rt.id, some chan.id, safeEventId event idx,
        "skipped", some "global_rate_limited", none, none⟩, rfl, ?_, ?_, ?_⟩ <;>
      simp only [stepChan, hgl, if_true]
  · rw [Bool.not_eq_true] at hgl
    by_cases hch : chanLimited chan (st.per_chan_limit_used chan.id) = true
    · left
      refine ⟨⟨sub_id, some rt.id, some chan.id, safeEventId event idx,
          "skipped", some "channel_rate_limited", none, none⟩, rfl, ?_, ?_, ?_⟩ <;>
        simp only [stepChan, hgl, hch, Bool.false_eq_true, if_false, if_true]
    · rw [Bool.not_eq_true] at hch
      by_cases hw : chan.type = "webhook"
      · right
        refine ⟨hgl, hch,
          ⟨⟨sub_id, some rt.id, some chan.id, safeEventId event idx, "sent",
            none, some "written",
            some (webhookFile chan sub_id event idx now_iso).1⟩,
            rfl, rfl, ?_⟩, ?_, ?_⟩ <;>
          simp only [stepChan, hgl, hch, hw, Bool.false_eq_true, if_false,
            if_true]
      · by_cases he : chan.type = "email"
        · right
          refine ⟨hgl, hch,
            ⟨⟨sub_id, some rt.id, some chan.id, safeEventId event idx, "sent",
              none, some "written",
              some (emailFile chan sub_id event idx now_iso).1⟩,
              rfl, rfl, ?_⟩, ?_, ?_⟩ <;>
            simp only [stepChan, hgl, hch, hw, he, Bool.false_eq_true,
              if_false, if_true, String.reduceEq]
        · left
          refine ⟨⟨sub_id, some rt.id, some chan.id, safeEventId event idx,
              "skipped", some ("unknown_channel_type:" ++ chan.type), none,
              none⟩, rfl, ?_, ?_, ?_⟩ <;>
            simp only [stepChan, hgl, hch, hw, he, Bool.false_eq_true,
              if_false, if_true]

/-- An attempt record counted as a sent attempt. -/
def isSent (d : AttemptRec) : Bool :=
  d.status == "sent"

/-- An attempt record counted as a sent attempt on channel id `cid`. -/
def isSentOn (cid : String) (d : AttemptRec) : Bool :=
  d.status == "sent" && d.channel_id == some cid

/-- Router invariant for the global cap `g`: the `details` sent-count
coincides with `global_used`, which stays within `max 0 g`. -/
def InvGlobal (g : Int) (st : RState) : Prop :=
  st.details.countP isSent = st.global_used ∧ (st.global_used : Int) ≤ max 0 g

/-- Router invariant for a fixed channel id `cid` capped at `m`: the
`details` sent-count on `cid` coincides with its limiter counter, which
stays within `max 0 m`. -/
def InvChan (cid : String) (m : Int) (st : RState) : Prop :=
  st.details.countP (isSentOn cid) = st.per_chan_limit_used cid ∧
    (st.per_chan_limit_used cid : Int) ≤ max 0 m

/-- One channel iteration preserves the global-cap invariant. -/
theorem stepChan_invGlobal {g : Int} {gl : GlobalLimits}
    (hg : gl.max_per_run = some g) (sub_id : String) (event : JObj) (idx : Nat)
    (rt : RouteCfg) (now_iso : Int) (st : RState) (chan : ChannelCfg)
    (h : InvGlobal g st) :
    InvGlobal g (stepChan gl sub_id event idx rt now_iso st chan) := by
  obtain ⟨hc, hb⟩ := h
  rcases stepChan_cases gl sub_id event idx rt now_iso st chan with
    ⟨d, hds, hdet, hgu, _⟩ | ⟨hgl, _, ⟨d, hds, _, hdet⟩, hgu, _⟩
  · have hd : isSent d = false := by unfold isSent; rw [hds]; rfl
    constructor
    · rw [hdet, countP_snoc, hgu, hd, hc]; simp
    · rw [hgu]; exact hb
  · have hd : isSent d = true := by unfold isSent; rw [hds]; rfl
    constructor
    · rw [hdet, countP_snoc, hgu, hd, hc]; simp
    · rw [hgu]
      simp only [globalLimited, hg, ge_iff_le, decide_eq_false_iff_not,
        not_le] at hgl
      have h2 : (st.global_used : Int) + 1 ≤ g := by omega
      calc ((st.global_used + 1 : Nat) : Int)
          = (st.global_used : Int) + 1 := by push_cast; ring
        _ ≤ g := h2
        _ ≤ max 0 g := le_max_right 0 g

/-- One channel iteration preserves the per-channel invariant, provided
every channel instance with id `cid` in scope carries the cap `m`. -/
theorem stepChan_invChan {cid : String} {m : Int} (gl : GlobalLimits)
    (sub_id : String) (event : JObj) (idx : Nat) (rt : RouteCfg)
    (now_iso : Int) (st : RState) (chan : ChannelCfg)
    (hcap : chan.id = cid → chan.max_per_run = some m)
    (h : InvChan cid m st) :
    InvChan cid m (stepChan gl sub_id event idx rt now_iso st chan) := by
  obtain ⟨hc, hb⟩ := h
  rcases stepChan_cases gl sub_id event idx rt now_iso st chan with
    ⟨d, hds, hdet, _, hpcu⟩ | ⟨_, hch, ⟨d, hds, hdcid, hdet⟩, _, hpcu⟩
  · have hd : isSentOn cid d = false := by unfold isSentOn; rw [hds]; rfl
    constructor
    · rw [hdet, countP_snoc, hpcu, hd, hc]; simp
    · rw [hpcu]; exact hb
  · by_cases hcc : chan.id = cid
    · have hcap2 := hcap hcc
      have hd : isSentOn cid d = true := by
        unfold isSentOn
        rw [hds, hdcid, hcc]
        simp
      have hupd : (fun k => if k = chan.id then st.per_chan_limit_used chan.id + 1
          else st.per_chan_limit_used k) cid = st.per_chan_limit_used cid + 1 := by
        show (if cid = chan.id then st.per_chan_limit_used chan.id + 1
          else st.per_chan_limit_used cid) = st.per_chan_limit_used cid + 1
        rw [if_pos hcc.symm, hcc]
      constructor
      · rw [hdet, countP_snoc, hpcu, hd, hupd, hc]; simp
      · rw [hpcu, hupd]
        simp only [chanLimited, hcap2, ge_iff_le, decide_eq_false_iff_not,
          not_le] at hch
        rw [hcc] at hch
        have h2 : (st.per_chan_limit_used cid : Int) + 1 ≤ m := by omega
        calc ((st.per_chan_limit_used cid + 1 : Nat) : Int)
            = (st.per_chan_limit_used cid : Int) + 1 := by push_cast; ring
          _ ≤ m := h2
          _ ≤ max 0 m := le_max_right 0 m
    · have hd : isSentOn cid d = false := by
        unfold isSentOn
        rw [hds, hdcid]
        simp [hcc]
      have hupd : (fun k => if k = chan.id then st.per_chan_limit_used chan.id + 1
          else st.per_chan_limit_used k) cid = st.per_chan_limit_used cid := by
        show (if cid = chan.id then st.per_chan_limit_used chan.id + 1
          else st.per_chan_limit_used cid) = st.per_chan_limit_used cid
        rw [if_neg (fun hh => hcc (Eq.symm hh))]
      constructor
      · rw [hdet, countP_snoc, hpcu, hd, hupd, hc]; simp
      · rw [hpcu, hupd]; exact hb

/-- One matched-record iteration preserves the global-cap invariant. -/
theorem stepRecR_invGlobal {g : Int} {gl : GlobalLimits}
    (hg : gl.max_per_run = some g) (routes : List RouteCfg) (now_iso : Int)
    (st : RState) (p : Nat × MatchedRec) (h : InvGlobal g st) :
    InvGlobal g (stepRecR routes gl now_iso st p) := by
  unfold stepRecR
  by_cases hm : (routes.filter
      (fun rt => routeMatches rt (pyStr p.2.subscription_id) p.2.event)).isEmpty = true
  · rw [if_pos hm]
    obtain ⟨hc, hb⟩ := h
    constructor
    · rw [countP_snoc]
      show st.details.countP isSent + (if isSent _ = true then 1 else 0) = _
      rw [show isSent ⟨pyStr p.2.subscription_id, none, none,
        safeEventId p.2.event p.1, "skipped", some "no_route", none, none⟩ = false
        from rfl]
      simpa using hc
    · exact hb
  · rw [if_neg hm]
    refine foldl_preserve_mem (InvGlobal g) _ _ (fun a rt _ ha => ?_) st h
    exact foldl_preserve_mem (InvGlobal g) _ _
      (fun a2 chan _ ha2 => stepChan_invGlobal hg _ _ _ _ _ a2 chan ha2) a ha

/-- One matched-record iteration preserves the per-channel invariant,
given a uniform cap for `cid` across the route table. -/
theorem stepRecR_invChan {cid : String} {m : Int} (gl : GlobalLimits)
    (routes : List RouteCfg) (now_iso : Int)
    (huni : ∀ rt ∈ routes, ∀ c ∈ rt.channels, c.id = cid → c.max_per_run = some m)
    (st : RState) (p : Nat × MatchedRec) (h : InvChan cid m st) :
    InvChan cid m (stepRecR routes gl now_iso st p) := by
  unfold stepRecR
  by_cases hm : (routes.filter
      (fun rt => routeMatches rt (pyStr p.2.subscription_id) p.2.event)).isEmpty = true
  · rw [if_pos hm]
    obtain ⟨hc, hb⟩ := h
    constructor
    · rw [countP_snoc]
      rw [show isSentOn cid ⟨pyStr p.2.subscription_id, none, none,
        safeEventId p.2.event p.1, "skipped", some "no_route", none, none⟩ = false
        from rfl]
      simpa using hc
    · exact hb
  · rw [if_neg hm]
    refine foldl_preserve_mem (InvChan cid m) _ _ (fun a rt hrt ha => ?_) st h
    have hrt2 : rt ∈ routes := List.mem_of_mem_filter hrt
    exact foldl_preserve_mem (InvChan cid m) _ _
      (fun a2 chan hchan ha2 =>
        stepChan_invChan _ _ _ _ _ _ a2 chan (huni rt hrt2 chan hchan) ha2) a ha

/-- C3 counterexample: with the global cap *set to −1* and one routable
record, the run performs no send, yet `0 ≤ -1` fails — the sent-count does
not stay within a negative `max_per_run`, so the bound as stated does not
hold for every configuration. -/
theorem router_caps_cex :
    ¬(((runChannels
          [⟨"r1", ⟨none, none, none⟩, [⟨"webhook", "ch1", "outbox", none, none, none⟩]⟩]
          ⟨some (-1)⟩ 0 [⟨.s "s1", JObj.nil⟩]).details.countP isSent : Int) ≤ -1) := by
  decide

/-- C3 (amended): after `run_channels_cli`, the number of attempts with
status `sent` is at most `max 0 g` when the global cap `g` is set; and for
every channel id whose cap is uniform across the configuration (every
instance with that id carries `max_per_run = m`), the number of `sent`
attempts on that id is at most `max 0 m`.  (A negative cap yields zero
sends, which still exceeds the stated bound; a channel id configured with
different caps shares a single counter, so only a uniform cap is
enforced per id.) -/
theorem router_caps (routes : List RouteCfg) (gl : GlobalLimits)
    (now_iso : Int) (matched : List MatchedRec) :
    (∀ g : Int, gl.max_per_run = some g →
      (((runChannels routes gl now_iso matched).details.countP isSent : Int) ≤
        max 0 g)) ∧
    (∀ (cid : String) (m : Int),
      (∀ rt ∈ routes, ∀ c ∈ rt.channels, c.id = cid → c.max_per_run = some m) →
      (((runChannels routes gl now_iso matched).details.countP
          (isSentOn cid) : Int) ≤ max 0 m)) := by
  constructor
  · intro g hg
    have h := foldl_preserve_mem (InvGlobal g) (stepRecR routes gl now_iso)
      matched.enum (fun a p _ ha => stepRecR_invGlobal hg routes now_iso a p ha)
      ⟨0, 0, 0, fun _ => 0, fun _ => 0, fun _ => 0, []⟩
      ⟨rfl, by simp⟩
    obtain ⟨hc, hb⟩ := h
    rw [runChannels, hc]
    exact hb
  · intro cid m huni
    have h := foldl_preserve_mem (InvChan cid m) (stepRecR routes gl now_iso)
      matched.enum
      (fun a p _ ha => stepRecR_invChan gl routes now_iso huni a p ha)
      ⟨0, 0, 0, fun _ => 0, fun _ => 0, fun _ => 0, []⟩
      ⟨rfl, by simp⟩
    obtain ⟨hc, hb⟩ := h
    rw [runChannels, hc]
    exact hb

/-- C3 witness: one route, one webhook channel capped at 3, global cap 5,
one matched record — both amended bounds applied at this input. -/
theorem router_caps_witness :
    (((runChannels
        [⟨"r1", ⟨none, none, none⟩,
          [⟨"webhook", "ch1", "outbox", none, none, some 3⟩]⟩]
        ⟨some 5⟩ 0 [⟨.s "s1", JObj.nil⟩]).details.countP isSent : Int) ≤
      max 0 5) ∧
    (((runChannels
        [⟨"r1", ⟨none, none, none⟩,
          [⟨"webhook", "ch1", "outbox", none, none, some 3⟩]⟩]
        ⟨some 5⟩ 0 [⟨.s "s1", JObj.nil⟩]).details.countP
        (isSentOn "ch1") : Int) ≤ max 0 3) :=
  ⟨(router_caps
      [⟨"r1", ⟨none, none, none⟩, [⟨"webhook", "ch1", "outbox", none, none, some 3⟩]⟩]
      ⟨some 5⟩ 0 [⟨.s "s1", JObj.nil⟩]).1 5 rfl,
   (router_caps
      [⟨"r1", ⟨none, none, none⟩, [⟨"webhook", "ch1", "outbox", none, none, some 3⟩]⟩]
      ⟨some 5⟩ 0 [⟨.s "s1", JObj.nil⟩]).2 "ch1" 3 (by decide)⟩

/-! ## m11_4_public.py — Public portal builder -/

/-- `PublicPolicy` (m11_4_public.py); `asset_pseudonym_pfx` embeds the
source field `asset_pseudonym_prefix`. -/
structure PublicPolicy where
  min_severity : String
  max_items : Int
  visible_fields : List String
  anonymize_asset_id : Bool
  include_asset_id_field : Bool
  asset_pseudonym_pfx : String
  coords_round_decimals : Int
deriving DecidableEq

/-- `Regionalization` (m11_4_public.py). -/
structure Regionalization where
  aoi_to_region : List (String × String)
  fallback_region : String
deriving DecidableEq

/-- `PublicConfig` (m11_4_public.py). -/
structure PublicConfig where
  policy : PublicPolicy
  regionalization : Regionalization
deriving DecidableEq

/-- `_severity_at_least` of m11_4 (string arguments, default rank 0). -/
def severityAtLeastStr (ev_sev min_sev : String) : Bool :=
  rankOf ev_sev ≥ rankOf min_sev

/-- `_to_region`: falsy `aoi_id` maps to the fallback, otherwise the
`aoi_to_region` lookup of `str(aoi_id)` with the fallback as default. -/
def toRegion (aoi_id : JVal) (regionalization : Regionalization) : String :=
  if jTruthy aoi_id = false then regionalization.fallback_region
  else (regionalization.aoi_to_region.lookup (pyStr aoi_id)).getD
    regionalization.fallback_region

/-- A deduped record as kept by `_load_deduped` (a dict with an `event`
key; as in m10_3, a non-dict `event` crashes the source before any output
is produced, so it is modelled as a dict). -/
structure PubRec where
  event : JObj
deriving DecidableEq

/-- The first five `item` fields built by `_sanitize_item`, in insertion
order (`ts` is the parsed event time or the wall clock `now0`). -/
def sanitizeBase (now0 : Int) (cfg : PublicConfig) (rec : PubRec) :
    List (String × JVal) :=
  [("ts", .i ((parseIso (rec.event.getN "ts")).getD now0)),
   ("topic", rec.event.getN "topic"),
   ("severity", rec.event.getN "severity"),
   ("aoi_id", rec.event.getN "aoi_id"),
   ("region", .s (toRegion (rec.event.getN "aoi_id") cfg.regionalization))]

/-- `item` after the optional `asset_id` pseudonym step.  `_mask_asset`
computes an HMAC-SHA256 pseudonym from the process-level environment
secret; it is modelled by the oracle `mask` (`none`/empty for a falsy
result). -/
def sanitizeWithAsset (mask : String → Option String) (now0 : Int)
    (cfg : PublicConfig) (rec : PubRec) : List (String × JVal) :=
  if cfg.policy.include_asset_id_field then
    if cfg.policy.anonymize_asset_id then
      let asset_src :=
        if jTruthy (rec.event.getN "asset_id") then pyStr (rec.event.getN "asset_id")
        else ""
      match mask asset_src with
      | some p =>
        if p ≠ "" then
          sanitizeBase now0 cfg rec ++
            [("asset_id", .s (cfg.policy.asset_pseudonym_pfx ++ p))]
        else sanitizeBase now0 cfg rec ++ [("asset_id", .null)]
      | none => sanitizeBase now0 cfg rec ++ [("asset_id", .null)]
    else sanitizeBase now0 cfg rec ++ [("asset_id", rec.event.getN "asset_id")]
  else sanitizeBase now0 cfg rec

/-- `_sanitize_item`: build the item, then drop any field not in
`visible_fields`. -/
def sanitizeItem (mask : String → Option String) (now0 : Int)
    (cfg : PublicConfig) (rec : PubRec) : List (String × JVal) :=
  (sanitizeWithAsset mask now0 cfg rec).filter
    (fun kv => cfg.policy.visible_fields.contains kv.1)

/-- Insert under a boolean "goes before" test (stable insertion). -/
def insertBy {α : Type} (le : α → α → Bool) (a : α) : List α → List α
  | [] => [a]
  | b :: bs => if le a b then a :: b :: bs else b :: insertBy le a bs

/-- Python's stable `list.sort` modelled as insertion sort; only the
permutation property matters to the verified claims. -/
def sortBy {α : Type} (le : α → α → Bool) : List α → List α
  | [] => []
  | a :: rest => insertBy le a (sortBy le rest)

/-- The sort key comparison `key=lambda x: x.get("ts", ""), reverse=True`
(descending; mixed-type keys would raise in Python and are ordered
arbitrarily here). -/
def feedBefore (a b : List (String × JVal)) : Bool :=
  match (a.lookup "ts").getD (.s ""), (b.lookup "ts").getD (.s "") with
  | .i x, .i y => decide (y ≤ x)
  | .s x, .s y => !decide (x < y)
  | .i _, _ => true
  | _, _ => false

/-- The public feed built by `run_public_build`: severity floor, sanitize,
sort newest-first, truncate to `max_items` when positive. -/
def publicFeed (mask : String → Option String) (now0 : Int)
    (cfg : PublicConfig) (deduped : List PubRec) : List (List (String × JVal)) :=
  let filtered := deduped.filter (fun rec =>
    severityAtLeastStr (pyStr ((rec.event.get "severity").getD (.s "info")))
      cfg.policy.min_severity)
  let feed_items := filtered.map (sanitizeItem mask now0 cfg)
  let sorted := sortBy feedBefore feed_items
  if 0 < cfg.policy.max_items then sorted.take cfg.policy.max_items.toNat
  else sorted

/-- `insertBy` inserts: the result is a permutation of `a :: l`. -/
theorem insertBy_perm {α : Type} (le : α → α → Bool) (a : α) :
    ∀ l : List α, (insertBy le a l).Perm (a :: l) := by
  intro l
  induction l with
  | nil => exact List.Perm.refl _
  | cons b bs ih =>
    unfold insertBy
    by_cases h : le a b = true
    · rw [if_pos h]
    · rw [if_neg h]
      exact (List.Perm.cons b ih).trans (List.Perm.swap a b bs)

/-- `sortBy` permutes its input. -/
theorem sortBy_perm {α : Type} (le : α → α → Bool) :
    ∀ l : List α, (sortBy le l).Perm l := by
  intro l
  induction l with
  | nil => exact List.Perm.refl _
  | cons a rest ih =>
    unfold sortBy
    exact (insertBy_perm le a (sortBy le rest)).trans (List.Perm.cons a ih)

/-- Keys of the unfiltered item: the five base fields, plus `asset_id`
only when `include_asset_id_field` is on. -/
theorem sanitizeWithAsset_keys (mask : String → Option String) (now0 : Int)
    (cfg : PublicConfig) (rec : PubRec) :
    ∀ kv ∈ sanitizeWithAsset mask now0 cfg rec,
      kv.1 ∈ ["ts", "topic", "severity", "aoi_id", "region"] ∨
        (kv.1 = "asset_id" ∧ cfg.policy.include_asset_id_field = true) := by
  have hbase : ∀ kv ∈ sanitizeBase now0 cfg rec,
      kv.1 ∈ ["ts", "topic", "severity", "aoi_id", "region"] := by
    intro kv hkv
    unfold sanitizeBase at hkv
    simp only [List.mem_cons, List.not_mem_nil, or_false] at hkv
    rcases hkv with h | h | h | h | h <;> (rw [h]; simp)
  have hshape : sanitizeWithAsset mask now0 cfg rec = sanitizeBase now0 cfg rec ∨
      (cfg.policy.include_asset_id_field = true ∧ ∃ v : JVal,
        sanitizeWithAsset mask now0 cfg rec =
          sanitizeBase now0 cfg rec ++ [("asset_id", v)]) := by
    unfold sanitizeWithAsset
    by_cases hinc : cfg.policy.include_asset_id_field = true
    · rw [if_pos hinc]
      right
      refine ⟨hinc, ?_⟩
      by_cases han : cfg.policy.anonymize_asset_id = true
      · rw [if_pos han]
        cases hm : mask (if jTruthy (rec.event.getN "asset_id") = true then
            pyStr (rec.event.getN "asset_id") else "") with
        | none => exact ⟨.null, by simp [hm]⟩
        | some p =>
          by_cases hp : p = ""
          · exact ⟨.null, by simp [hm, hp]⟩
          · exact ⟨.s (cfg.policy.asset_pseudonym_pfx ++ p), by simp [hm, hp]⟩
      · rw [if_neg han]
        exact ⟨rec.event.getN "asset_id", rfl⟩
    · rw [if_neg hinc]
      left
      rfl
  intro kv hkv
  rcases hshape with h | ⟨hinc, v, h⟩
  · rw [h] at hkv
    exact Or.inl (hbase kv hkv)
  · rw [h] at hkv
    rcases List.mem_append.1 hkv with h2 | h2
    · exact Or.inl (hbase kv h2)
    · rw [List.mem_singleton] at h2
      rw [h2]
      exact Or.inr ⟨rfl, hinc⟩

/-- C2: every item of the public feed carries only keys that are in
`visible_fields`, and carries `asset_id` only when
`include_asset_id_field` is on — no payload field can appear. -/
theorem public_feed_redaction (mask : String → Option String) (now0 : Int)
    (cfg : PublicConfig) (deduped : List PubRec) :
    ∀ item ∈ publicFeed mask now0 cfg deduped, ∀ k ∈ item.map Prod.fst,
      k ∈ cfg.policy.visible_fields ∧
        (k = "asset_id" → cfg.policy.include_asset_id_field = true) := by
  intro item hitem k hk
  have hsorted : item ∈ sortBy feedBefore
      ((deduped.filter (fun rec =>
        severityAtLeastStr (pyStr ((rec.event.get "severity").getD (.s "info")))
          cfg.policy.min_severity)).map (sanitizeItem mask now0 cfg)) := by
    unfold publicFeed at hitem
    by_cases h : 0 < cfg.policy.max_items
    · rw [if_pos h] at hitem
      exact List.take_subset _ _ hitem
    · rw [if_neg h] at hitem
      exact hitem
  have hfeed := (sortBy_perm feedBefore _).mem_iff.1 hsorted
  obtain ⟨rec, _, hrec⟩ := List.mem_map.1 hfeed
  obtain ⟨kv, hkv, hkfst⟩ := List.mem_map.1 hk
  rw [← hrec] at hkv
  unfold sanitizeItem at hkv
  rw [List.mem_filter] at hkv
  obtain ⟨hmem, hvis⟩ := hkv
  subst hkfst
  constructor
  · exact List.mem_of_elem_eq_true hvis
  · intro hkeq
    rcases sanitizeWithAsset_keys mask now0 cfg rec kv hmem with h | h
    · rw [hkeq] at h
      simp at h
    · exact h.2

/-- C2 witness: a concrete build (floor `medium`, four visible fields, no
asset id) whose single feed item is checked at key `"ts"` through the
theorem. -/
theorem public_feed_redaction_witness :
    "ts" ∈ ["ts", "topic", "severity", "region"] ∧
      ("ts" = "asset_id" →
        (⟨⟨"medium", 200, ["ts", "topic", "severity", "region"], true, false,
            "asset_", 0⟩, ⟨[], "Unknown"⟩⟩ : PublicConfig).policy.include_asset_id_field
          = true) :=
  public_feed_redaction (fun _ => none) 0
    ⟨⟨"medium", 200, ["ts", "topic", "severity", "region"], true, false,
      "asset_", 0⟩, ⟨[], "Unknown"⟩⟩
    [⟨JObj.cons "severity" (.s "high") (JObj.cons "ts" (.i 50)
      (JObj.cons "payload" (.dict (JObj.cons "secret" (.s "x") JObj.nil))
        JObj.nil))⟩]
    [("ts", .i 50), ("topic", .null), ("severity", .s "high"),
      ("region", .s "Unknown")]
    (by decide)
    "ts" (by decide)
